import Mathlib

/-!
Shallow embedding of the NDVI tree-monitoring core
(`src/models.py`, `src/ndvi_processor.py`, boundary of `src/gee_utils.py`).

Conventions of the embedding:
* Python floats are modelled as exact rationals (`ℚ`); the code only moves
  values around, subtracts them and compares them, so exact arithmetic is a
  faithful model of the value flow.
* The SQLAlchemy session is modelled as explicit state: the `tree_points`
  table is a `List TreePoint`, the `ndvi_samples` table a `List NDVISample`
  (list order = insertion order, as delivered by the autoincrement key).
* `datetime.date` is modelled by `PDate` with the Gregorian validity rule;
  `date.replace` raising `ValueError` is modelled by `Except`.
* The external sampler (`sample_ndvi_points_sync`) is a parameter: a function
  from the point list and a date to `Except` (it may raise) of the result
  list it builds (`{'tree_id': ..., 'ndvi': float|None}` records).
* Commit success/failure of the one batch commit in
  `_store_comparative_samples` is a `Bool` parameter (`commitOk`).
-/

namespace TreeNdvi

attribute [local semireducible] Rat.sub Rat.add Rat.mul Rat.inv Rat.ofScientific

/-- Substring test on character lists: does `needle` occur contiguously in
the second list?  Used to model Python's `in` operator on strings. -/
def subList (needle : List Char) : List Char → Bool
  | [] => needle.isEmpty
  | c :: t => needle.isPrefixOf (c :: t) || subList needle t

/-- Python `needle in hay` for strings. -/
def strIn (needle hay : String) : Bool := subList needle.data hay.data

/-- Python `datetime.date`: a (year, month, day) triple. -/
structure PDate where
  year : Int
  month : Nat
  day : Nat
deriving DecidableEq

/-- Gregorian leap-year rule (as in Python's `calendar.isleap`). -/
def isLeapYear (y : Int) : Bool := y % 4 == 0 && (y % 100 != 0 || y % 400 == 0)

/-- Length of a month in the proleptic Gregorian calendar. -/
def daysInMonth (y : Int) (m : Nat) : Nat :=
  if m == 2 then (if isLeapYear y then 29 else 28)
  else if m == 4 || m == 6 || m == 9 || m == 11 then 30
  else 31

/-- Validity of a (year, month, day) triple as a `datetime.date`. -/
def PDate.isValid (d : PDate) : Bool :=
  decide (1 ≤ d.month) && decide (d.month ≤ 12) &&
  decide (1 ≤ d.day) && decide (d.day ≤ daysInMonth d.year d.month)

/-- `d.replace(year=y)`: raises `ValueError` when the day does not exist in
the target month (e.g. Feb 29 of a non-leap year). -/
def PDate.replaceYear (d : PDate) (y : Int) : Except String PDate :=
  if PDate.isValid ⟨y, d.month, d.day⟩ then .ok ⟨y, d.month, d.day⟩
  else .error "day is out of range for month"

/-- `d.replace(day=1)` — always valid for a valid month. -/
def PDate.firstOfMonth (d : PDate) : PDate := ⟨d.year, d.month, 1⟩

/-- `d - relativedelta(months=k)` for a day that exists in every month
(the code only applies it to first-of-month dates). -/
def subMonths (d : PDate) (k : Nat) : PDate :=
  let total : Int := d.year * 12 + (d.month : Int) - 1 - (k : Int)
  ⟨total.ediv 12, (total.emod 12 + 1).toNat, d.day⟩

/-- Calendar order on dates (lexicographic year, month, day). -/
def PDate.le (a b : PDate) : Bool :=
  decide (a.year < b.year) ||
  (a.year == b.year &&
    (decide (a.month < b.month) || (a.month == b.month && decide (a.day ≤ b.day))))

/-- Row of the `tree_points` table (`src/models.py`, class `TreePoint`).
`id` is the autoincrement surrogate key; `tree_id` the optional external
identifier; coordinates are degrees. -/
structure TreePoint where
  id : Int
  tree_id : Option String
  species : Option String
  lon : ℚ
  lat : ℚ
  source : String
deriving DecidableEq

/-- Row of the `ndvi_samples` table (`src/models.py`, class `NDVISample`),
restricted to the fields the processor reads and writes. -/
structure NDVISample where
  tree_point_id : Int
  period_month : PDate
  ndvi : Option ℚ
  ndvi_prev_year : Option ℚ
  ndvi_diff : Option ℚ
deriving DecidableEq

/-- The per-point dict built by `NDVIProcessor._get_all_points`
(`src/ndvi_processor.py:601-607`). -/
structure ValidPoint where
  id : Int
  tree_id : String
  lon : ℚ
  lat : ℚ
  species : String
deriving DecidableEq

/-- Loop body of `_get_all_points` (`src/ndvi_processor.py:578-607`):
per point, the trusted-species/id check, the geographic-bounds check and
the Tokyo-bay exclusion, each `continue`-ing on failure. -/
def collectValid : List TreePoint → List ValidPoint
  | [] => []
  | p :: rest =>
    let tid := p.tree_id.getD ""
    let sp := p.species.getD ""
    let is_real_matsu := strIn "マツ" sp && (strIn "PT" tid || strIn "MATSU_ROAD" tid)
    let is_real_nara := (strIn "ナラ" sp || strIn "カシ" sp) &&
      (strIn "PT" tid || strIn "NARA_ROAD" tid)
    if !(is_real_matsu || is_real_nara) then collectValid rest
    else if !(decide ((35.0 : ℚ) ≤ p.lat) && decide (p.lat ≤ (36.0 : ℚ)) &&
              decide ((138.5 : ℚ) ≤ p.lon) && decide (p.lon ≤ (140.5 : ℚ))) then
      collectValid rest
    else if decide (p.lat < (35.4 : ℚ)) && decide ((139.7 : ℚ) ≤ p.lon) &&
            decide (p.lon ≤ (140.1 : ℚ)) then
      collectValid rest
    else ⟨p.id, tid, p.lon, p.lat, sp⟩ :: collectValid rest

/-- `priority_key` of `_get_all_points` (`src/ndvi_processor.py:610-615`). -/
def priorityKey (q : ValidPoint) : Nat := if strIn "マツ" q.species then 0 else 1

/-- `valid_points.sort(key=priority_key)`: Python's `list.sort` is stable,
and for this two-valued key a stable sort is exactly the partition keeping
key-0 elements (in order) before key-1 elements (in order). -/
def prioritySort (l : List ValidPoint) : List ValidPoint :=
  l.filter (fun q => priorityKey q == 0) ++ l.filter (fun q => !(priorityKey q == 0))

/-- `NDVIProcessor._get_all_points` (`src/ndvi_processor.py:572-619`). -/
def getAllPoints (pts : List TreePoint) : List ValidPoint :=
  prioritySort (collectValid pts)

/-- `NDVIProcessor.add_tree_point` (`src/ndvi_processor.py:24-52`): builds a
`TreePoint` from its arguments, adds it to the session and commits.  The
autoincrement key the engine would assign is passed in as `nextId`; the
`float(lon)` / `float(lat)` casts are the identity on the numeric values
modelled here.  The function performs no checks; it returns the new table
state and the row. -/
def add_tree_point (db : List TreePoint) (nextId : Int) (lon lat : ℚ)
    (tree_id species : Option String) (source : String) :
    List TreePoint × TreePoint :=
  let point : TreePoint := ⟨nextId, tree_id, species, lon, lat, source⟩
  (db ++ [point], point)

/-- One element of the list returned by `sample_ndvi_points_sync`
(`src/gee_utils.py:135-151`), restricted to the two fields
`_store_comparative_samples` reads: `sample.get('tree_id')` and
`sample.get('ndvi')`.  A missing key yields `none`. -/
structure SamplerResult where
  tree_id : Option String
  ndvi : Option ℚ
deriving DecidableEq

/-- Python truthiness of the `tree_id` value (`if tree_id:`): `None` and the
empty string are falsy. -/
def truthyKey : Option String → Bool
  | none => false
  | some s => !(s == "")

/-- A Python dict from string keys to float-or-None values, as an
association list in insertion order with unique keys. -/
abbrev PyDict := List (String × Option ℚ)

/-- `d[k] = v`: overwrite in place when the key exists, else append. -/
def dictSet (d : PyDict) (k : String) (v : Option ℚ) : PyDict :=
  if d.any (fun e => e.1 == k) then
    d.map (fun e => if e.1 == k then (k, v) else e)
  else d ++ [(k, v)]

/-- `d.get(k)`: `None` both when the key is absent and when the stored
value is `None` — exactly how `_store_comparative_samples` consumes it. -/
def dictGet (d : PyDict) (k : String) : Option ℚ :=
  match d.find? (fun e => e.1 == k) with
  | some e => e.2
  | none => none

/-- The dict-building loops of `_store_comparative_samples`
(`src/ndvi_processor.py:480-492`): results whose `tree_id` is falsy are
dropped; later results with the same key overwrite earlier ones. -/
def buildDict (samples : List SamplerResult) : PyDict :=
  samples.foldl
    (fun d s => if truthyKey s.tree_id then dictSet d (s.tree_id.getD "") s.ndvi else d)
    []

/-- Keys of a dict, in insertion order. -/
def dictKeys (d : PyDict) : List String := d.map (fun e => e.1)

/-- `all_point_ids = set(); update(current); update(previous)`
(`src/ndvi_processor.py:495-497`).  Python set iteration order is
unspecified; it is modelled as current-dict keys first, then the
previous-dict keys not already present.  The keys of each dict are unique,
so the result is duplicate-free. -/
def unionKeys (c p : PyDict) : List String :=
  dictKeys c ++ (dictKeys p).filter (fun k => !(dictKeys c).contains k)

/-- The digits-only body of a decimal numeral, as a number. -/
def digitsVal (cs : List Char) : Option Nat :=
  if cs.isEmpty then none
  else if cs.all (fun c => c.isDigit) then
    some (cs.foldl (fun n c => 10 * n + (c.toNat - 48)) 0)
  else none

/-- Python `int(s)` on canonical decimal numerals (an optional sign followed
by digits); everything else raises `ValueError`, modelled as `none`. -/
def parsePyInt (s : String) : Option Int :=
  match s.data with
  | '-' :: rest => (digitsVal rest).map (fun n => -(n : Int))
  | '+' :: rest => (digitsVal rest).map (fun n => (n : Int))
  | cs => (digitsVal cs).map (fun n => (n : Int))

/-- The upsert block of `_store_comparative_samples`
(`src/ndvi_processor.py:534-554`): look up the first `NDVISample` row with
this `(tree_point_id, period_month)` key; if found, overwrite its three
value fields in place, otherwise add a new row at the end. -/
def upsertSample (store : List NDVISample) (pid : Int) (pm : PDate)
    (cur prev diff : Option ℚ) : List NDVISample :=
  match store with
  | [] => [⟨pid, pm, cur, prev, diff⟩]
  | s :: rest =>
    if s.tree_point_id == pid && s.period_month == pm then
      { s with ndvi := cur, ndvi_prev_year := prev, ndvi_diff := diff } :: rest
    else s :: upsertSample rest pid pm cur prev diff

/-- The difference computation of `_store_comparative_samples`
(`src/ndvi_processor.py:529-532`): `ndvi_diff = None`, set to
`current - previous` only when both operands are non-`None`. -/
def computeDiff (cur prev : Option ℚ) : Option ℚ :=
  match cur, prev with
  | some c, some p => some (c - p)
  | _, _ => none

/-- Loop body of `_store_comparative_samples` for one key of the union
(`src/ndvi_processor.py:499-556`): read both dicts (the `float(...)`
coercions of the source are the identity on the numeric-or-`None` values
modelled here), resolve the key — as a Python `int` when it parses,
otherwise by looking up a `TreePoint` whose `tree_id` equals the key,
`continue`-ing (with a logged warning) when that lookup fails — compute
the difference and upsert.  `acc` carries `saved_count` and the pending
session state. -/
def processKey (registry : List TreePoint) (pm : PDate) (cdict pdict : PyDict)
    (acc : Nat × List NDVISample) (k : String) : Nat × List NDVISample :=
  let current_ndvi := dictGet cdict k
  let previous_ndvi := dictGet pdict k
  match (match parsePyInt k with
         | some n => some n
         | none => (registry.find? (fun p => p.tree_id == some k)).map (fun p => p.id)) with
  | none => acc
  | some db_point_id =>
    (acc.1 + 1,
     upsertSample acc.2 db_point_id pm current_ndvi previous_ndvi
       (computeDiff current_ndvi previous_ndvi))

/-- `NDVIProcessor._store_comparative_samples`
(`src/ndvi_processor.py:457-570`).  `commitOk` is the outcome of the final
`session.commit()`: on failure the session rolls back (the original store
is kept) and the function reports `saved_count = 0`. -/
def storeComparativeSamples (registry : List TreePoint)
    (store : List NDVISample) (current_samples previous_samples : List SamplerResult)
    (period_month : PDate) (commitOk : Bool) : Nat × List NDVISample :=
  let has_current := decide (0 < current_samples.length)
  let has_previous := decide (0 < previous_samples.length)
  if !has_current && !has_previous then (0, store)
  else
    let current_dict := if has_current then buildDict current_samples else []
    let previous_dict := if has_previous then buildDict previous_samples else []
    let keys := unionKeys current_dict previous_dict
    let r := keys.foldl (processKey registry period_month current_dict previous_dict)
      (0, store)
    if commitOk then r else (0, store)

/-- One element of the list built by `NDVIProcessor.get_alerts`
(`src/ndvi_processor.py:302-315`). -/
structure Alert where
  point_id : Int
  tree_id : Option String
  species : Option String
  lon : ℚ
  lat : ℚ
  period_month : PDate
  ndvi : Option ℚ
  ndvi_prev_year : Option ℚ
  ndvi_diff : ℚ
  severity : String
deriving DecidableEq

/-- Insert a (diff, sample, point) row into a diff-sorted list of rows. -/
def insertRow (a : ℚ × NDVISample × TreePoint) :
    List (ℚ × NDVISample × TreePoint) → List (ℚ × NDVISample × TreePoint)
  | [] => [a]
  | b :: t => if decide (a.1 ≤ b.1) then a :: b :: t else b :: insertRow a t

/-- `ORDER BY ndvi_diff ASC`, as an insertion sort on the diff value. -/
def sortRows : List (ℚ × NDVISample × TreePoint) → List (ℚ × NDVISample × TreePoint)
  | [] => []
  | a :: t => insertRow a (sortRows t)

/-- The alert dict built for one query row (`src/ndvi_processor.py:304-315`),
including the severity classification. -/
def mkAlert (threshold : ℚ) (r : ℚ × NDVISample × TreePoint) : Alert :=
  { point_id := r.2.2.id
    tree_id := r.2.2.tree_id
    species := r.2.2.species
    lon := r.2.2.lon
    lat := r.2.2.lat
    period_month := r.2.1.period_month
    ndvi := r.2.1.ndvi
    ndvi_prev_year := r.2.1.ndvi_prev_year
    ndvi_diff := r.1
    severity := if decide (r.1 < threshold * 2) then "high" else "medium" }

/-- The join-and-filter clause of the alert query
(`src/ndvi_processor.py:294-300`) applied to one sample row: inner-join the
sample with its `TreePoint` (`id` is the primary key, so the first match is
the match), then keep the row when `ndvi_diff < threshold` — an SQL `NULL`
diff compares false — and `period_month` lies within
`[start_date, end_date]`. -/
def alertRowOf (points : List TreePoint) (threshold : ℚ)
    (start_date end_date : PDate) (s : NDVISample) :
    Option (ℚ × NDVISample × TreePoint) :=
  match points.find? (fun p => p.id == s.tree_point_id) with
  | none => none
  | some p =>
    match s.ndvi_diff with
    | none => none
    | some dv =>
      if decide (dv < threshold) && PDate.le start_date s.period_month &&
          PDate.le s.period_month end_date then
        some (dv, s, p)
      else none

/-- `NDVIProcessor.get_alerts` (`src/ndvi_processor.py:278-317`): with
`end_date` the first day of today's month and `start_date` that date
shifted back `months_back` months, run the join-and-filter over the store,
order by diff ascending and build the alert dicts.  A pure query: the
given store is not modified. -/
def get_alerts (points : List TreePoint) (store : List NDVISample)
    (today : PDate) (threshold : ℚ) (months_back : Nat) : List Alert :=
  (sortRows (store.filterMap (alertRowOf points threshold
      (subMonths today.firstOfMonth months_back) today.firstOfMonth))).map
    (mkAlert threshold)

/-- The result dict of `run_latest_processing`
(`src/ndvi_processor.py:441-455`): the success and error shapes. -/
inductive RunResult where
  | success (target_date : PDate) (processed_points : Nat) (total_points : Nat)
      (alerts_count : Nat) (processing_method : String)
  | error (error_message : String)
deriving DecidableEq

/-- `NDVIProcessor.run_latest_processing` (`src/ndvi_processor.py:403-455`).
The external sampler is a parameter that may raise (`Except.error`); any
exception inside the `try` block lands in the top-level handler, which
returns the error-shaped result and leaves the session state unchanged.
The body: normalize the target to the month start, sample the current
period, compute the prior-year date with `date.replace` (which raises for
Feb 29 targets), sample the prior period, merge and store both result
lists, then count alerts with the default threshold `-0.1` over the last
3 months. -/
def run_latest_processing (registry : List TreePoint) (store : List NDVISample)
    (sampler : List ValidPoint → PDate → Except String (List SamplerResult))
    (commitOk : Bool) (today : PDate) (target_date : PDate) :
    RunResult × List NDVISample :=
  let current_month := target_date.firstOfMonth
  match sampler (getAllPoints registry) target_date with
  | .error e => (.error e, store)
  | .ok current_samples =>
    match target_date.replaceYear (target_date.year - 1) with
    | .error e => (.error e, store)
    | .ok prev_year_date =>
      match sampler (getAllPoints registry) prev_year_date with
      | .error e => (.error e, store)
      | .ok prev_year_samples =>
        let r := storeComparativeSamples registry store current_samples
          prev_year_samples current_month commitOk
        let alerts := get_alerts registry r.2 today (-(1 : ℚ)/10) 3
        (.success target_date r.1 (getAllPoints registry).length alerts.length
          "latest_comparative", r.2)

/-! ### Spec-side characterizations

The following definitions transcribe the *specification's* wording (for the
refinement claims they are compared against the source-side definitions
above). -/

/-- The dict an input point is turned into (`src/ndvi_processor.py:601-607`). -/
def viewPoint (p : TreePoint) : ValidPoint :=
  ⟨p.id, p.tree_id.getD "", p.lon, p.lat, p.species.getD ""⟩

/-- Spec §4.1 stage 1, first disjunct: the species/external-id combination
matches a recognized trusted category (primary taxon マツ with a PT / road
source code, or the ナラ・カシ taxa with a PT / road source code). -/
def specTrustedCombo (p : TreePoint) : Bool :=
  (strIn "マツ" (p.species.getD "") &&
    (strIn "PT" (p.tree_id.getD "") || strIn "MATSU_ROAD" (p.tree_id.getD ""))) ||
  ((strIn "ナラ" (p.species.getD "") || strIn "カシ" (p.species.getD "")) &&
    (strIn "PT" (p.tree_id.getD "") || strIn "NARA_ROAD" (p.tree_id.getD "")))

/-- Spec §4.1 stage 2: the configured geographic bounding box. -/
def specInBBox (p : TreePoint) : Bool :=
  decide ((35.0 : ℚ) ≤ p.lat) && decide (p.lat ≤ (36.0 : ℚ)) &&
  decide ((138.5 : ℚ) ≤ p.lon) && decide (p.lon ≤ (140.5 : ℚ))

/-- Spec §4.1 stage 3: the water-exclusion box (Tokyo bay). -/
def specInWater (p : TreePoint) : Bool :=
  decide (p.lat < (35.4 : ℚ)) && decide ((139.7 : ℚ) ≤ p.lon) &&
  decide (p.lon ≤ (140.1 : ℚ))

/-- The three-stage validity filter as the claim C4 states it: trusted
species/id combination OR a direct citizen submission, inside the bounding
box, outside the water area. -/
def specPassesClaim (p : TreePoint) : Bool :=
  (specTrustedCombo p || (p.source == "citizen_report")) &&
    specInBBox p && !specInWater p

/-- The three-stage validity filter as implemented: the citizen-submission
disjunct is absent from `_get_all_points`. -/
def specPassesAmended (p : TreePoint) : Bool :=
  specTrustedCombo p && specInBBox p && !specInWater p

/-- The key-resolution rule of the reconciliation loop, as amended: a key
that parses as a Python `int` is used directly as the surrogate point id
(no existence check); any other key is resolved to the first registered
point whose external `tree_id` equals it, and yields `none` when there is
no such point. -/
def resolveKeySpec (registry : List TreePoint) (k : String) : Option Int :=
  match parsePyInt k with
  | some n => some n
  | none => (registry.find? (fun p => p.tree_id == some k)).map (fun p => p.id)

/-- The diff law of spec §8 for one stored row: the difference equals
current minus prior when both are present, and is null whenever either
operand is null. -/
def DiffLaw (s : NDVISample) : Prop :=
  (∀ c p, s.ndvi = some c → s.ndvi_prev_year = some p → s.ndvi_diff = some (c - p)) ∧
  ((s.ndvi = none ∨ s.ndvi_prev_year = none) → s.ndvi_diff = none)

/-- Number of rows in the store holding a given (point, month) key. -/
def keyCount (store : List NDVISample) (pid : Int) (pm : PDate) : Nat :=
  (store.filter (fun s => s.tree_point_id == pid && s.period_month == pm)).length

/-- The storage invariant of spec §3: at most one `NDVISample` row per
(tree_point, period_month) pair. -/
def AtMostOnePerKey (store : List NDVISample) : Prop :=
  ∀ pid pm, keyCount store pid pm ≤ 1

/-- Eligibility of a stored sample for an alert, as claim C8 states it:
the diff is present and strictly below the threshold, and the period month
lies within the window ending at the current month and reaching back
`months_back` months. -/
def specAlertEligible (today : PDate) (threshold : ℚ) (months_back : Nat)
    (s : NDVISample) : Bool :=
  match s.ndvi_diff with
  | none => false
  | some dv =>
    decide (dv < threshold) &&
      PDate.le (subMonths today.firstOfMonth months_back) s.period_month &&
      PDate.le s.period_month today.firstOfMonth

/-- The alert built for an eligible sample: its diff value, the sample and
its (unique) registered point. -/
def alertOfSample (points : List TreePoint) (threshold : ℚ) (s : NDVISample) : Alert :=
  mkAlert threshold
    ((s.ndvi_diff).getD 0, s,
     (points.find? (fun p => p.id == s.tree_point_id)).getD ⟨0, none, none, 0, 0, ""⟩)

/-- Concrete registry for the alert-query scenario of spec §8. -/
def alertDemoPoints : List TreePoint :=
  [⟨1, some "PT1", some "クロマツ", 139.5, 35.7, "manual"⟩,
   ⟨2, some "PT2", some "コナラ", 139.6, 35.8, "manual"⟩,
   ⟨3, some "PT3", some "アカマツ", 139.7, 35.9, "manual"⟩]

/-- Concrete store for the alert-query scenario of spec §8: diffs −0.5,
−0.2 and −0.05 in the current month. -/
def alertDemoStore : List NDVISample :=
  [⟨2, ⟨2024, 6, 1⟩, some 0.5, some 0.7, some (-0.2)⟩,
   ⟨3, ⟨2024, 6, 1⟩, some 0.6, some 0.65, some (-0.05)⟩,
   ⟨1, ⟨2024, 6, 1⟩, some 0.3, some 0.8, some (-0.5)⟩]

example : subMonths ⟨2024, 6, 1⟩ 3 = ⟨2024, 3, 1⟩ := by decide

example :
    getAllPoints [⟨1, some "PT001", some "クロマツ", 139.5, 35.7, "manual"⟩,
                  ⟨2, some "R1", some "サクラ", 139.5, 35.7, "citizen_report"⟩,
                  ⟨3, some "PT002", some "コナラ", 139.5, 35.7, "manual"⟩,
                  ⟨4, some "PT003", some "アカマツ", 139.5, 35.7, "manual"⟩]
      = [⟨1, "PT001", 139.5, 35.7, "クロマツ"⟩, ⟨4, "PT003", 139.5, 35.7, "アカマツ"⟩,
         ⟨3, "PT002", 139.5, 35.7, "コナラ"⟩] := by decide

example :
    getAllPoints [⟨1, some "PT001", some "クロマツ", 139.9, 35.2, "manual"⟩] = [] := by
  decide

example : subMonths ⟨2024, 2, 1⟩ 3 = ⟨2023, 11, 1⟩ := by decide

example : PDate.replaceYear ⟨2024, 2, 29⟩ 2023 = .error "day is out of range for month" := rfl

example : strIn "マツ" "クロマツ" = true := by decide

example : strIn "マツ" "サクラ" = false := by decide

example :
    storeComparativeSamples [⟨1, some "PT1", some "クロマツ", 139.5, 35.7, "manual"⟩] []
      [⟨some "PT1", some 0.7⟩] [⟨some "PT1", some 0.5⟩] ⟨2024, 6, 1⟩ true
      = (1, [⟨1, ⟨2024, 6, 1⟩, some 0.7, some 0.5, some 0.2⟩]) := by decide

example :
    storeComparativeSamples [⟨1, some "PT1", some "クロマツ", 139.5, 35.7, "manual"⟩] []
      [⟨some "PT1", some 0.7⟩] [⟨some "PT1", some 0.5⟩] ⟨2024, 6, 1⟩ false
      = (0, []) := by decide

example :
    get_alerts [⟨1, some "PT1", some "クロマツ", 139.5, 35.7, "manual"⟩]
      [⟨1, ⟨2024, 6, 1⟩, some 0.3, some 0.8, some (-0.5)⟩] ⟨2024, 6, 10⟩ (-0.1) 3
      = [⟨1, some "PT1", some "クロマツ", 139.5, 35.7, ⟨2024, 6, 1⟩, some 0.3, some 0.8,
          -0.5, "high"⟩] := by decide

example :
    run_latest_processing [⟨1, some "PT1", some "クロマツ", 139.5, 35.7, "manual"⟩] []
      (fun _ d => if d.year == 2023 then .ok [⟨some "PT1", some 0.5⟩]
                  else .ok [⟨some "PT1", some 0.7⟩])
      true ⟨2024, 6, 10⟩ ⟨2024, 6, 15⟩
      = (.success ⟨2024, 6, 15⟩ 1 1 0 "latest_comparative",
         [⟨1, ⟨2024, 6, 1⟩, some 0.7, some 0.5, some 0.2⟩]) := by decide

/-! ### Shared lemmas -/

/-- A failed batch commit rolls the session back: the store is returned
unchanged and `saved_count` is reported as `0`, whatever was staged. -/
theorem storeComparativeSamples_commit_failed (registry : List TreePoint)
    (store : List NDVISample) (cur prev : List SamplerResult) (pm : PDate) :
    storeComparativeSamples registry store cur prev pm false = (0, store) := by
  unfold storeComparativeSamples
  cases hc : (!decide (0 < cur.length) && !decide (0 < prev.length)) <;> simp [hc]

/-- Unfolding `run_latest_processing` when both sampler calls and the
prior-year date computation succeed. -/
theorem run_latest_processing_ok (registry : List TreePoint)
    (store : List NDVISample)
    (sampler : List ValidPoint → PDate → Except String (List SamplerResult))
    (commitOk : Bool) (today target : PDate)
    (cs ps : List SamplerResult) (pd : PDate)
    (h1 : sampler (getAllPoints registry) target = .ok cs)
    (h2 : PDate.replaceYear target (target.year - 1) = .ok pd)
    (h3 : sampler (getAllPoints registry) pd = .ok ps) :
    run_latest_processing registry store sampler commitOk today target =
      (let r := storeComparativeSamples registry store cs ps target.firstOfMonth commitOk
       (.success target r.1 (getAllPoints registry).length
         (get_alerts registry r.2 today (-(1 : ℚ)/10) 3).length "latest_comparative", r.2)) := by
  unfold run_latest_processing
  simp only [h1, h2, h3]

/-! ### C1 -/

/-- **C1** (counterexample to the claim as stated).  A comparative run whose
batch commit fails (`commitOk = false`) reports *success* status with zero
saved samples — not the error-status result the claim requires. -/
theorem C1_counterexample :
    run_latest_processing [⟨1, some "PT1", some "クロマツ", 139.5, 35.7, "manual"⟩] []
      (fun _ _ => .ok [⟨some "PT1", some 0.7⟩]) false ⟨2024, 6, 1⟩ ⟨2024, 6, 15⟩
      = (.success ⟨2024, 6, 15⟩ 0 1 0 "latest_comparative", []) := by decide

/-- **C1** (amended).  If the batch commit at the end of a comparative
processing run fails, the entire batch is rolled back and the run reports
zero saved samples — but the run result still carries *success* status (the
commit exception is swallowed inside `_store_comparative_samples`).  All of
a run's upserts take effect (commit succeeds) or none (rollback); a partial
commit never happens, but the zero-saved run is surfaced as success. -/
theorem C1_commit_failure_rollback :
    (∀ (registry : List TreePoint) (store : List NDVISample) cur prev pm,
      storeComparativeSamples registry store cur prev pm false = (0, store)) ∧
    (∀ (registry : List TreePoint) (store : List NDVISample) sampler today target cs pd ps,
      sampler (getAllPoints registry) target = .ok cs →
      PDate.replaceYear target (target.year - 1) = .ok pd →
      sampler (getAllPoints registry) pd = .ok ps →
      run_latest_processing registry store sampler false today target =
        (.success target 0 (getAllPoints registry).length
          (get_alerts registry store today (-(1 : ℚ)/10) 3).length "latest_comparative",
         store)) := by
  refine ⟨storeComparativeSamples_commit_failed, ?_⟩
  intro registry store sampler today target cs pd ps h1 h2 h3
  rw [run_latest_processing_ok registry store sampler false today target cs ps pd h1 h2 h3]
  simp [storeComparativeSamples_commit_failed]

/-- Witness for C1: the amended statement applied to a concrete
commit-failing run. -/
theorem C1_commit_failure_rollback_witness :
    run_latest_processing [] [] (fun _ _ => .ok [⟨some "7", some 1⟩]) false
      ⟨2024, 5, 1⟩ ⟨2024, 5, 2⟩
      = (.success ⟨2024, 5, 2⟩ 0 0 0 "latest_comparative", []) := by
  have h := C1_commit_failure_rollback.2 [] [] (fun _ _ => .ok [⟨some "7", some 1⟩])
    ⟨2024, 5, 1⟩ ⟨2024, 5, 2⟩ [⟨some "7", some 1⟩] ⟨2023, 5, 2⟩ [⟨some "7", some 1⟩]
    rfl rfl rfl
  exact h

/-! ### C2 -/

/-- **C2** (counterexample to the claim as stated).  When the prior-year
sampler call raises, the run is aborted with an error-status result and the
current period's data (0.7 for point PT1) is *not* stored — contradicting
the claim that the raising period is treated as "no results" while the
other period is still reconciled and stored. -/
theorem C2_counterexample :
    run_latest_processing [⟨1, some "PT1", some "クロマツ", 139.5, 35.7, "manual"⟩] []
      (fun _ d => if d.year == 2023 then .error "sampler raised"
                  else .ok [⟨some "PT1", some 0.7⟩])
      true ⟨2024, 6, 1⟩ ⟨2024, 6, 15⟩
      = (.error "sampler raised", []) := by decide

/-- **C2** (amended).  The sampler calls of `run_latest_processing` are not
individually guarded: if either of the two calls raises, the exception
propagates to the run's top-level handler, the run returns an error-status
result, and nothing is stored for either period. -/
theorem C2_sampler_exception_aborts (registry : List TreePoint)
    (store : List NDVISample)
    (sampler : List ValidPoint → PDate → Except String (List SamplerResult))
    (commitOk : Bool) (today target : PDate) (e : String)
    (h : sampler (getAllPoints registry) target = .error e ∨
      ∃ cs pd, sampler (getAllPoints registry) target = .ok cs ∧
        PDate.replaceYear target (target.year - 1) = .ok pd ∧
        sampler (getAllPoints registry) pd = .error e) :
    run_latest_processing registry store sampler commitOk today target = (.error e, store) := by
  rcases h with h1 | ⟨cs, pd, h1, h2, h3⟩
  · unfold run_latest_processing
    simp only [h1]
  · unfold run_latest_processing
    simp only [h1, h2, h3]

/-- Witness for C2: the amended statement applied to a concrete run whose
second sampler call raises. -/
theorem C2_sampler_exception_aborts_witness :
    run_latest_processing [] [⟨1, ⟨2024, 1, 1⟩, some 1, none, none⟩]
      (fun _ d => if d.year == 2023 then .error "boom" else .ok []) true
      ⟨2024, 6, 1⟩ ⟨2024, 6, 15⟩
      = (.error "boom", [⟨1, ⟨2024, 1, 1⟩, some 1, none, none⟩]) :=
  C2_sampler_exception_aborts [] [⟨1, ⟨2024, 1, 1⟩, some 1, none, none⟩]
    (fun _ d => if d.year == 2023 then .error "boom" else .ok []) true
    ⟨2024, 6, 1⟩ ⟨2024, 6, 15⟩ "boom"
    (Or.inr ⟨[], ⟨2023, 6, 15⟩, rfl, rfl, rfl⟩)

/-! ### C3 -/

/-- **C3** (counterexample to the claim as stated).  `add_tree_point`
persists a point whose coordinates are far outside the valid ranges
(longitude 200 ∉ [-180, 180], latitude 100 ∉ [-90, 90]) instead of failing
with a ValidationError and persisting nothing. -/
theorem C3_counterexample :
    ¬((-180 : ℚ) ≤ 200 ∧ (200 : ℚ) ≤ 180) ∧ ¬((-90 : ℚ) ≤ 100 ∧ (100 : ℚ) ≤ 90) ∧
    (add_tree_point [] 1 200 100 none none "manual").1
      = [⟨1, none, none, 200, 100, "manual"⟩] := by decide

/-- **C3** (amended).  `add_tree_point` performs no coordinate validation at
all: for every coordinate pair, in range or not, the call succeeds and
persists exactly one new `TreePoint` row carrying those coordinates (the
range check of the spec exists only on the CSV-import path). -/
theorem C3_no_coordinate_validation (db : List TreePoint) (nextId : Int)
    (lon lat : ℚ) (tid sp : Option String) (src : String) :
    (add_tree_point db nextId lon lat tid sp src).1
        = db ++ [⟨nextId, tid, sp, lon, lat, src⟩] ∧
    (add_tree_point db nextId lon lat tid sp src).2
        = ⟨nextId, tid, sp, lon, lat, src⟩ ∧
    ((add_tree_point db nextId lon lat tid sp src).1).length = db.length + 1 := by
  refine ⟨rfl, rfl, ?_⟩
  simp [add_tree_point]

/-! ### C10 -/

/-- A Feb 29 date is only valid in a leap year; the preceding year is then
never a leap year (it is ≡ 3 mod 4), so `date.replace(year=year-1)` raises. -/
theorem replaceYear_feb29 (y : Int) (h : PDate.isValid ⟨y, 2, 29⟩ = true) :
    PDate.replaceYear ⟨y, 2, 29⟩ (y - 1) = .error "day is out of range for month" := by
  have hleap : isLeapYear y = true := by
    by_cases hL : isLeapYear y = true
    · exact hL
    · exfalso
      rw [Bool.not_eq_true] at hL
      simp [PDate.isValid, daysInMonth, hL] at h
  have h4 : y % 4 = 0 := by
    simp only [isLeapYear, Bool.and_eq_true, beq_iff_eq] at hleap
    exact hleap.1
  have h4' : (y - 1) % 4 = 3 := by omega
  have hleap' : isLeapYear (y - 1) = false := by
    simp [isLeapYear, h4']
  have hval : PDate.isValid ⟨y - 1, 2, 29⟩ = false := by
    simp [PDate.isValid, daysInMonth, hleap']
  unfold PDate.replaceYear
  simp [hval]

/-- **C10** (confirmed).  For a target date of February 29,
`run_latest_processing` stores nothing (the session state is returned
unchanged) and returns an error-status result; in particular, when the
current-month sampler call succeeds, the failure is exactly the
`ValueError` of replacing the year on Feb 29 — the prior-year date does
not exist — converted by the run's top-level handler. -/
theorem C10_feb29_run_errors (y : Int) (registry : List TreePoint)
    (store : List NDVISample)
    (sampler : List ValidPoint → PDate → Except String (List SamplerResult))
    (commitOk : Bool) (today : PDate)
    (h : PDate.isValid ⟨y, 2, 29⟩ = true) :
    (∃ e, run_latest_processing registry store sampler commitOk today ⟨y, 2, 29⟩
        = (.error e, store)) ∧
    (∀ cs, sampler (getAllPoints registry) ⟨y, 2, 29⟩ = .ok cs →
      run_latest_processing registry store sampler commitOk today ⟨y, 2, 29⟩
        = (.error "day is out of range for month", store)) := by
  have hrep := replaceYear_feb29 y h
  have hmain : ∀ cs, sampler (getAllPoints registry) ⟨y, 2, 29⟩ = .ok cs →
      run_latest_processing registry store sampler commitOk today ⟨y, 2, 29⟩
        = (.error "day is out of range for month", store) := by
    intro cs hs
    unfold run_latest_processing
    simp only [hs, hrep]
  constructor
  · cases hs : sampler (getAllPoints registry) ⟨y, 2, 29⟩ with
    | error e =>
      refine ⟨e, ?_⟩
      unfold run_latest_processing
      simp only [hs]
    | ok cs => exact ⟨"day is out of range for month", hmain cs hs⟩
  · exact hmain

/-- Witness for C10: the Feb 29, 2024 run with a concrete sampler. -/
theorem C10_feb29_run_errors_witness :
    PDate.isValid ⟨2024, 2, 29⟩ = true ∧
    run_latest_processing [] [] (fun _ _ => .ok []) true ⟨2024, 3, 1⟩ ⟨2024, 2, 29⟩
      = (.error "day is out of range for month", []) :=
  ⟨by decide,
   (C10_feb29_run_errors 2024 [] [] (fun _ _ => .ok []) true ⟨2024, 3, 1⟩ (by decide)).2
     [] rfl⟩

/-! ### C6 -/

/-- A row whose fields were produced by the inline difference computation
satisfies the diff law. -/
theorem diffLaw_of_fields (s : NDVISample) (cur prev : Option ℚ)
    (h1 : s.ndvi = cur) (h2 : s.ndvi_prev_year = prev)
    (h3 : s.ndvi_diff = computeDiff cur prev) : DiffLaw s := by
  constructor
  · intro c p hc hp
    rw [h1] at hc
    rw [h2] at hp
    rw [h3, hc, hp]
    rfl
  · intro hcases
    rw [h3]
    rcases hcases with hh | hh
    · rw [h1] at hh
      rw [hh]
      cases prev <;> rfl
    · rw [h2] at hh
      rw [hh]
      cases cur <;> rfl

/-- Membership in an upsert result: a row either was already in the store,
or carries exactly the three value fields written by the upsert. -/
theorem mem_upsertSample (store : List NDVISample) (pid : Int) (pm : PDate)
    (cur prev diff : Option ℚ) (s : NDVISample)
    (hs : s ∈ upsertSample store pid pm cur prev diff) :
    s ∈ store ∨ (s.ndvi = cur ∧ s.ndvi_prev_year = prev ∧ s.ndvi_diff = diff) := by
  induction store with
  | nil =>
    simp only [upsertSample, List.mem_singleton] at hs
    right
    rw [hs]
    exact ⟨rfl, rfl, rfl⟩
  | cons a t ih =>
    simp only [upsertSample] at hs
    by_cases h : (a.tree_point_id == pid && a.period_month == pm) = true
    · rw [if_pos h] at hs
      rcases List.mem_cons.mp hs with h1 | h1
      · right
        rw [h1]
        exact ⟨rfl, rfl, rfl⟩
      · exact Or.inl (List.mem_cons_of_mem _ h1)
    · rw [if_neg h] at hs
      rcases List.mem_cons.mp hs with h1 | h1
      · exact Or.inl (h1 ▸ List.mem_cons_self a t)
      · rcases ih h1 with h2 | h2
        · exact Or.inl (List.mem_cons_of_mem _ h2)
        · exact Or.inr h2

/-- One reconciliation step preserves the diff law on the session state. -/
theorem processKey_diffLaw (registry : List TreePoint) (pm : PDate)
    (cdict pdict : PyDict) (acc : Nat × List NDVISample) (k : String)
    (h : ∀ s ∈ acc.2, DiffLaw s) :
    ∀ s ∈ (processKey registry pm cdict pdict acc k).2, DiffLaw s := by
  intro s hs
  unfold processKey at hs
  cases hr : (match parsePyInt k with
      | some n => some n
      | none => (registry.find? fun p : TreePoint => p.tree_id == some k).map
          fun p : TreePoint => p.id) with
  | none =>
    rw [hr] at hs
    exact h s hs
  | some n =>
    rw [hr] at hs
    simp only at hs
    rcases mem_upsertSample _ _ _ _ _ _ s hs with h1 | h1
    · exact h s h1
    · exact diffLaw_of_fields s _ _ h1.1 h1.2.1 h1.2.2

/-- The whole reconciliation fold preserves the diff law. -/
theorem foldl_processKey_diffLaw (registry : List TreePoint) (pm : PDate)
    (cdict pdict : PyDict) :
    ∀ (keys : List String) (acc : Nat × List NDVISample),
      (∀ s ∈ acc.2, DiffLaw s) →
      ∀ s ∈ (keys.foldl (processKey registry pm cdict pdict) acc).2, DiffLaw s := by
  intro keys
  induction keys with
  | nil =>
    intro acc h
    simpa using h
  | cons k t ih =>
    intro acc h
    simp only [List.foldl_cons]
    exact ih _ (processKey_diffLaw registry pm cdict pdict acc k h)

/-- **C6** (confirmed).  Every (current, prior) pair written through the
sample store obeys the diff law: assuming all rows already in the store do,
every row of the store after a comparative merge-and-store has
`diff = current - prior` when both values are present and `diff = null`
whenever either is null. -/
theorem C6_diff_law (registry : List TreePoint) (store : List NDVISample)
    (cur prev : List SamplerResult) (pm : PDate) (commitOk : Bool)
    (h : ∀ s ∈ store, DiffLaw s) :
    ∀ s ∈ (storeComparativeSamples registry store cur prev pm commitOk).2, DiffLaw s := by
  unfold storeComparativeSamples
  cases hc : (!decide (0 < cur.length) && !decide (0 < prev.length)) with
  | true =>
    simp only [hc, if_pos]
    exact h
  | false =>
    simp only [hc]
    cases hk : commitOk with
    | true =>
      simp only [Bool.false_eq_true, if_false, if_pos]
      exact foldl_processKey_diffLaw registry pm _ _ _ _ h
    | false =>
      simp only [Bool.false_eq_true, if_false]
      exact h

/-- Witness for C6: a concrete merge starting from an empty store. -/
theorem C6_diff_law_witness :
    (∀ s ∈ ([] : List NDVISample), DiffLaw s) ∧
    (∀ s ∈ (storeComparativeSamples [] [] [⟨some "3", some 0.7⟩]
        [⟨some "3", some 0.5⟩] ⟨2024, 6, 1⟩ true).2, DiffLaw s) :=
  ⟨by simp,
   C6_diff_law [] [] [⟨some "3", some 0.7⟩] [⟨some "3", some 0.5⟩] ⟨2024, 6, 1⟩ true
     (by simp)⟩

/-! ### C7 -/

/-- Upserting the same key and values twice gives the same store as doing
it once. -/
theorem upsertSample_idempotent (store : List NDVISample) (pid : Int) (pm : PDate)
    (cur prev diff : Option ℚ) :
    upsertSample (upsertSample store pid pm cur prev diff) pid pm cur prev diff
      = upsertSample store pid pm cur prev diff := by
  induction store with
  | nil => simp [upsertSample]
  | cons a t ih =>
    by_cases h : (a.tree_point_id == pid && a.period_month == pm) = true
    · simp [upsertSample, h]
    · simp [upsertSample, h, ih]

/-- If the store held at most one row for the upserted key, the upsert
leaves exactly one row for it. -/
theorem keyCount_upsert_self (store : List NDVISample) (pid : Int) (pm : PDate)
    (cur prev diff : Option ℚ) (h1 : keyCount store pid pm ≤ 1) :
    keyCount (upsertSample store pid pm cur prev diff) pid pm = 1 := by
  induction store with
  | nil => simp [upsertSample, keyCount]
  | cons a t ih =>
    by_cases h : (a.tree_point_id == pid && a.period_month == pm) = true
    · have ht : keyCount t pid pm = 0 := by
        simp [keyCount, List.filter_cons, h] at h1
        simpa [keyCount] using h1
      simp [upsertSample, keyCount, List.filter_cons, h]
      simpa [keyCount] using ht
    · have ht : keyCount t pid pm ≤ 1 := by
        simpa [keyCount, List.filter_cons, h] using h1
      simpa [upsertSample, keyCount, List.filter_cons, h] using ih ht

/-- An upsert never changes the row count of any *other* key. -/
theorem keyCount_upsert_other (store : List NDVISample) (pid : Int) (pm : PDate)
    (cur prev diff : Option ℚ) (pid' : Int) (pm' : PDate)
    (hne : ¬(pid = pid' ∧ pm = pm')) :
    keyCount (upsertSample store pid pm cur prev diff) pid' pm'
      = keyCount store pid' pm' := by
  induction store with
  | nil =>
    have hcond : ((pid == pid') && (pm == pm')) = false := by
      rcases Decidable.not_and_iff_or_not.mp hne with hx | hx <;> simp [hx]
    simp [upsertSample, keyCount, List.filter_cons, hcond]
  | cons a t ih =>
    by_cases h : (a.tree_point_id == pid && a.period_month == pm) = true
    · simp [upsertSample, keyCount, List.filter_cons, h]
      split <;> simp
    · simp only [upsertSample, if_neg h, keyCount, List.filter_cons]
      by_cases h2 : (a.tree_point_id == pid' && a.period_month == pm') = true
      · simpa [h2, keyCount] using ih
      · simpa [h2, keyCount] using ih

/-- The upsert writes a row carrying exactly the given key and values. -/
theorem upsertSample_mem_new (store : List NDVISample) (pid : Int) (pm : PDate)
    (cur prev diff : Option ℚ) :
    ∃ s ∈ upsertSample store pid pm cur prev diff,
      s.tree_point_id = pid ∧ s.period_month = pm ∧
      s.ndvi = cur ∧ s.ndvi_prev_year = prev ∧ s.ndvi_diff = diff := by
  induction store with
  | nil =>
    exact ⟨⟨pid, pm, cur, prev, diff⟩, by simp [upsertSample], rfl, rfl, rfl, rfl, rfl⟩
  | cons a t ih =>
    by_cases h : (a.tree_point_id == pid && a.period_month == pm) = true
    · have hid : a.tree_point_id = pid := by
        have := (Bool.and_eq_true _ _).mp h
        exact (beq_iff_eq).mp this.1
      have hpm : a.period_month = pm := by
        have := (Bool.and_eq_true _ _).mp h
        exact (beq_iff_eq).mp this.2
      refine ⟨{a with ndvi := cur, ndvi_prev_year := prev, ndvi_diff := diff},
        ?_, hid, hpm, rfl, rfl, rfl⟩
      simp [upsertSample, h]
    · obtain ⟨s, hs, hprops⟩ := ih
      refine ⟨s, ?_, hprops⟩
      simp only [upsertSample, if_neg h]
      exact List.mem_cons_of_mem _ hs

/-- **C7** (confirmed).  Under the storage invariant, an upsert for a
(point, period_month) key overwrites the existing row's three value fields
in place rather than inserting: the invariant is preserved, after the
upsert there is exactly one row for the key and it carries the written
values, and repeating the upsert with the same arguments changes nothing. -/
theorem C7_upsert_key_invariant (store : List NDVISample) (pid : Int) (pm : PDate)
    (cur prev diff : Option ℚ) (h : AtMostOnePerKey store) :
    AtMostOnePerKey (upsertSample store pid pm cur prev diff) ∧
    upsertSample (upsertSample store pid pm cur prev diff) pid pm cur prev diff
      = upsertSample store pid pm cur prev diff ∧
    keyCount (upsertSample store pid pm cur prev diff) pid pm = 1 ∧
    ∃ s ∈ upsertSample store pid pm cur prev diff,
      s.tree_point_id = pid ∧ s.period_month = pm ∧
      s.ndvi = cur ∧ s.ndvi_prev_year = prev ∧ s.ndvi_diff = diff := by
  refine ⟨?_, upsertSample_idempotent store pid pm cur prev diff,
    keyCount_upsert_self store pid pm cur prev diff (h pid pm),
    upsertSample_mem_new store pid pm cur prev diff⟩
  intro pid' pm'
  by_cases hk : pid = pid' ∧ pm = pm'
  · rcases hk with ⟨rfl, rfl⟩
    exact le_of_eq (keyCount_upsert_self store pid pm cur prev diff (h pid pm))
  · rw [keyCount_upsert_other store pid pm cur prev diff pid' pm' hk]
    exact h pid' pm'

/-- Witness for C7: a concrete upsert into a store already holding a row
for the key. -/
theorem C7_upsert_key_invariant_witness :
    AtMostOnePerKey [(⟨1, ⟨2024, 6, 1⟩, some 0.3, none, none⟩ : NDVISample)] ∧
    (AtMostOnePerKey (upsertSample [⟨1, ⟨2024, 6, 1⟩, some 0.3, none, none⟩] 1
        ⟨2024, 6, 1⟩ (some 0.7) (some 0.5) (some 0.2)) ∧
     upsertSample (upsertSample [⟨1, ⟨2024, 6, 1⟩, some 0.3, none, none⟩] 1
        ⟨2024, 6, 1⟩ (some 0.7) (some 0.5) (some 0.2)) 1
        ⟨2024, 6, 1⟩ (some 0.7) (some 0.5) (some 0.2)
       = upsertSample [⟨1, ⟨2024, 6, 1⟩, some 0.3, none, none⟩] 1
          ⟨2024, 6, 1⟩ (some 0.7) (some 0.5) (some 0.2) ∧
     keyCount (upsertSample [⟨1, ⟨2024, 6, 1⟩, some 0.3, none, none⟩] 1
        ⟨2024, 6, 1⟩ (some 0.7) (some 0.5) (some 0.2)) 1 ⟨2024, 6, 1⟩ = 1 ∧
     ∃ s ∈ upsertSample [⟨1, ⟨2024, 6, 1⟩, some 0.3, none, none⟩] 1
        ⟨2024, 6, 1⟩ (some 0.7) (some 0.5) (some 0.2),
       s.tree_point_id = 1 ∧ s.period_month = ⟨2024, 6, 1⟩ ∧
       s.ndvi = some 0.7 ∧ s.ndvi_prev_year = some 0.5 ∧ s.ndvi_diff = some 0.2) := by
  have hinv : AtMostOnePerKey [(⟨1, ⟨2024, 6, 1⟩, some 0.3, none, none⟩ : NDVISample)] := by
    intro pid pm
    have := List.length_filter_le
      (fun s : NDVISample => s.tree_point_id == pid && s.period_month == pm)
      [⟨1, ⟨2024, 6, 1⟩, some 0.3, none, none⟩]
    simpa [keyCount] using this
  exact ⟨hinv, C7_upsert_key_invariant [⟨1, ⟨2024, 6, 1⟩, some 0.3, none, none⟩] 1
    ⟨2024, 6, 1⟩ (some 0.7) (some 0.5) (some 0.2) hinv⟩

/-! ### C9 and C5: reconciliation -/

/-- Auxiliary: the dict-building fold ignores results with falsy keys, for
any starting accumulator. -/
theorem buildDict_foldl_filter (l : List SamplerResult) (d : PyDict) :
    l.foldl
        (fun d s => if truthyKey s.tree_id then dictSet d (s.tree_id.getD "") s.ndvi else d)
        d
      = (l.filter (fun r => truthyKey r.tree_id)).foldl
          (fun d s => if truthyKey s.tree_id then dictSet d (s.tree_id.getD "") s.ndvi else d)
          d := by
  induction l generalizing d with
  | nil => rfl
  | cons r t ih =>
    by_cases h : truthyKey r.tree_id = true
    · simp only [List.foldl_cons, List.filter_cons, h, if_true]
      exact ih _
    · rw [Bool.not_eq_true] at h
      simp only [List.foldl_cons, List.filter_cons, h, Bool.false_eq_true, if_false]
      exact ih d

/-- Sampler results whose `tree_id` is missing or empty do not contribute
to the reconciliation dict. -/
theorem buildDict_filter_truthy (l : List SamplerResult) :
    buildDict l = buildDict (l.filter (fun r => truthyKey r.tree_id)) :=
  buildDict_foldl_filter l []

/-- Normal form of `_store_comparative_samples`: the early-return guard and
the per-dict emptiness guards are invisible in the result — the function
always behaves as the reconciliation fold over the union of the two dicts,
followed by the commit-or-rollback choice. -/
theorem storeComparativeSamples_norm (registry : List TreePoint)
    (store : List NDVISample) (cur prev : List SamplerResult) (pm : PDate)
    (commitOk : Bool) :
    storeComparativeSamples registry store cur prev pm commitOk
      = (if commitOk then
          (unionKeys (buildDict cur) (buildDict prev)).foldl
            (processKey registry pm (buildDict cur) (buildDict prev)) (0, store)
         else (0, store)) := by
  unfold storeComparativeSamples
  cases cur with
  | nil =>
    cases prev with
    | nil => cases commitOk <;> simp [buildDict, unionKeys, dictKeys]
    | cons p pt => cases commitOk <;> simp [buildDict]
  | cons c ct =>
    cases prev with
    | nil => cases commitOk <;> simp [buildDict]
    | cons p pt => cases commitOk <;> simp

/-- The reconciliation step behaves exactly as the amended resolution rule
prescribes: an unresolvable key is skipped, a resolvable key increments the
saved count and performs the upsert at the resolved id. -/
theorem processKey_resolves (registry : List TreePoint) (pm : PDate)
    (cdict pdict : PyDict) (acc : Nat × List NDVISample) (k : String) :
    (resolveKeySpec registry k = none → processKey registry pm cdict pdict acc k = acc) ∧
    (∀ n, resolveKeySpec registry k = some n →
      processKey registry pm cdict pdict acc k
        = (acc.1 + 1, upsertSample acc.2 n pm (dictGet cdict k) (dictGet pdict k)
            (computeDiff (dictGet cdict k) (dictGet pdict k)))) := by
  constructor
  · intro hr
    unfold processKey
    cases hp : parsePyInt k with
    | some m =>
      exfalso
      rw [resolveKeySpec, hp] at hr
      simp at hr
    | none =>
      have hf : ((registry.find? fun p : TreePoint => p.tree_id == some k).map
          (fun p : TreePoint => p.id)) = none := by
        rw [resolveKeySpec, hp] at hr
        simpa using hr
      simp [hp, hf]
  · intro n hr
    unfold processKey
    cases hp : parsePyInt k with
    | some m =>
      have hm : m = n := by
        rw [resolveKeySpec, hp] at hr
        simpa using hr
      subst hm
      simp [hp]
    | none =>
      have hf : ((registry.find? fun p : TreePoint => p.tree_id == some k).map
          (fun p : TreePoint => p.id)) = some n := by
        rw [resolveKeySpec, hp] at hr
        simpa using hr
      simp [hp, hf]

/-- The reconciliation fold's saved count equals the number of resolvable
keys, whatever the starting count and session state. -/
theorem foldl_processKey_count (registry : List TreePoint) (pm : PDate)
    (cdict pdict : PyDict) :
    ∀ (keys : List String) (n : Nat) (st : List NDVISample),
      (keys.foldl (processKey registry pm cdict pdict) (n, st)).1
        = n + (keys.filter (fun k => (resolveKeySpec registry k).isSome)).length := by
  intro keys
  induction keys with
  | nil =>
    intro n st
    simp
  | cons k t ih =>
    intro n st
    cases hr : resolveKeySpec registry k with
    | none =>
      rw [List.foldl_cons, (processKey_resolves registry pm cdict pdict (n, st) k).1 hr,
        List.filter_cons]
      simp [hr, ih]
    | some m =>
      rw [List.foldl_cons, (processKey_resolves registry pm cdict pdict (n, st) k).2 m hr,
        List.filter_cons]
      simp only [hr, Option.isSome_some, if_true]
      rw [ih]
      simp
      omega

/-- **C9** (confirmed).  Comparative reconciliation keys sampler results
solely by their `tree_id`: results whose `tree_id` is missing or the empty
string are dropped before the key union is formed (filtering them away
changes nothing), and when every result of both periods has a falsy
`tree_id`, the merge stores nothing and reports zero saved — so a
registered point with no external identifier never receives a sample even
when the sampler returned a numeric value for it. -/
theorem C9_falsy_keys_dropped (registry : List TreePoint)
    (store : List NDVISample) (pm : PDate) (commitOk : Bool)
    (cur prev : List SamplerResult) :
    buildDict cur = buildDict (cur.filter (fun r => truthyKey r.tree_id)) ∧
    storeComparativeSamples registry store cur prev pm commitOk
      = storeComparativeSamples registry store
          (cur.filter (fun r => truthyKey r.tree_id))
          (prev.filter (fun r => truthyKey r.tree_id)) pm commitOk ∧
    ((∀ r ∈ cur, truthyKey r.tree_id = false) →
     (∀ r ∈ prev, truthyKey r.tree_id = false) →
     storeComparativeSamples registry store cur prev pm commitOk = (0, store)) := by
  have hb1 := buildDict_filter_truthy cur
  have hb2 := buildDict_filter_truthy prev
  refine ⟨hb1, ?_, ?_⟩
  · rw [storeComparativeSamples_norm, storeComparativeSamples_norm, ← hb1, ← hb2]
  · intro hcur hprev
    have hc : cur.filter (fun r => truthyKey r.tree_id) = [] := by
      simp only [List.filter_eq_nil_iff]
      intro r hr
      simp [hcur r hr]
    have hp : prev.filter (fun r => truthyKey r.tree_id) = [] := by
      simp only [List.filter_eq_nil_iff]
      intro r hr
      simp [hprev r hr]
    rw [storeComparativeSamples_norm, hb1, hb2, hc, hp]
    cases commitOk <;> simp [buildDict, unionKeys, dictKeys]

/-- Witness for C9: a registered point with no external identifier; the
sampler returned the numeric value 0.8 for it (with the empty `tree_id` it
gets in the sampler's result row), yet nothing is stored. -/
theorem C9_falsy_keys_dropped_witness :
    storeComparativeSamples [⟨5, none, some "クロマツ", 139.5, 35.7, "manual"⟩] []
      [⟨some "", some 0.8⟩] [⟨none, some 0.6⟩] ⟨2024, 6, 1⟩ true = (0, []) :=
  (C9_falsy_keys_dropped [⟨5, none, some "クロマツ", 139.5, 35.7, "manual"⟩] []
      ⟨2024, 6, 1⟩ true [⟨some "", some 0.8⟩] [⟨none, some 0.6⟩]).2.2
    (by decide) (by decide)

/-- **C5** (counterexample to the claim as stated).  The registry's only
point has id 1, so the numeric key "999" resolves to no known point — yet
the entry is *not* skipped: a sample row with the dangling point id 999 is
inserted and counted. -/
theorem C5_counterexample :
    ((⟨1, some "A", some "クロマツ", 139.5, 35.7, "manual"⟩ : TreePoint).id ≠ 999) ∧
    storeComparativeSamples [⟨1, some "A", some "クロマツ", 139.5, 35.7, "manual"⟩] []
      [⟨some "999", some 0.5⟩] [] ⟨2024, 6, 1⟩ true
      = (1, [⟨999, ⟨2024, 6, 1⟩, some 0.5, none, none⟩]) := by decide

/-- **C5** (amended).  Each key in the union of current and prior result
keys is first parsed as an integer and, when that succeeds, used directly
as the surrogate point id without any existence check; only keys that fail
integer parsing are resolved by external-identifier lookup, and among
those, a key with no matching point is skipped (with a logged warning)
while every other key is still processed and counted: the run's saved
count equals the number of resolvable keys in the union. -/
theorem C5_key_resolution (registry : List TreePoint) (pm : PDate)
    (cdict pdict : PyDict) (acc : Nat × List NDVISample) (k : String)
    (store : List NDVISample) (cur prev : List SamplerResult) :
    (resolveKeySpec registry k = none → processKey registry pm cdict pdict acc k = acc) ∧
    (∀ n, resolveKeySpec registry k = some n →
      processKey registry pm cdict pdict acc k
        = (acc.1 + 1, upsertSample acc.2 n pm (dictGet cdict k) (dictGet pdict k)
            (computeDiff (dictGet cdict k) (dictGet pdict k)))) ∧
    (storeComparativeSamples registry store cur prev pm true).1
      = ((unionKeys (buildDict cur) (buildDict prev)).filter
          (fun key => (resolveKeySpec registry key).isSome)).length := by
  refine ⟨(processKey_resolves registry pm cdict pdict acc k).1,
    (processKey_resolves registry pm cdict pdict acc k).2, ?_⟩
  rw [storeComparativeSamples_norm]
  simp only [if_true]
  rw [foldl_processKey_count]
  simp

/-- Witness for C5: the amended resolution rule applied to the numeric key
"7" over an empty registry. -/
theorem C5_key_resolution_witness :
    processKey [] ⟨2024, 6, 1⟩ [] [] (0, []) "7"
      = (1, [⟨7, ⟨2024, 6, 1⟩, none, none, none⟩]) := by
  rw [(C5_key_resolution [] ⟨2024, 6, 1⟩ [] [] (0, []) "7" [] [] []).2.1 7 (by decide)]
  decide

/-! ### C8 -/

example :
    get_alerts alertDemoPoints alertDemoStore ⟨2024, 6, 10⟩ (-0.1) 3
      = [⟨1, some "PT1", some "クロマツ", 139.5, 35.7, ⟨2024, 6, 1⟩, some 0.3, some 0.8,
          -0.5, "high"⟩,
         ⟨2, some "PT2", some "コナラ", 139.6, 35.8, ⟨2024, 6, 1⟩, some 0.5, some 0.7,
          -0.2, "medium"⟩] := by decide

/-- Inserting into the diff-ordered list is a permutation of consing. -/
theorem insertRow_perm (a : ℚ × NDVISample × TreePoint)
    (l : List (ℚ × NDVISample × TreePoint)) : (insertRow a l).Perm (a :: l) := by
  induction l with
  | nil => exact List.Perm.refl _
  | cons b t ih =>
    by_cases h : decide (a.1 ≤ b.1) = true
    · simp [insertRow, h]
    · rw [Bool.not_eq_true] at h
      simp only [insertRow, h, Bool.false_eq_true, if_false]
      exact (ih.cons b).trans (List.Perm.swap a b t)

/-- The diff-ordering sort is a permutation of its input. -/
theorem sortRows_perm (l : List (ℚ × NDVISample × TreePoint)) :
    (sortRows l).Perm l := by
  induction l with
  | nil => exact List.Perm.refl _
  | cons a t ih => exact (insertRow_perm a (sortRows t)).trans (ih.cons a)

/-- Inserting into a diff-ordered list keeps it diff-ordered. -/
theorem insertRow_pairwise (a : ℚ × NDVISample × TreePoint)
    (l : List (ℚ × NDVISample × TreePoint))
    (h : List.Pairwise (fun x y => x.1 ≤ y.1) l) :
    List.Pairwise (fun x y => x.1 ≤ y.1) (insertRow a l) := by
  induction l with
  | nil => simp [insertRow]
  | cons b t ih =>
    rcases List.pairwise_cons.mp h with ⟨hb, ht⟩
    by_cases hab : decide (a.1 ≤ b.1) = true
    · have hab' : a.1 ≤ b.1 := of_decide_eq_true hab
      simp only [insertRow, hab, if_true]
      refine List.pairwise_cons.mpr ⟨?_, h⟩
      intro x hx
      rcases List.mem_cons.mp hx with rfl | hx
      · exact hab'
      · exact le_trans hab' (hb x hx)
    · have hab' : b.1 ≤ a.1 := le_of_not_le (fun hle => hab (decide_eq_true hle))
      rw [Bool.not_eq_true] at hab
      simp only [insertRow, hab, Bool.false_eq_true, if_false]
      refine List.pairwise_cons.mpr ⟨?_, ih ht⟩
      intro x hx
      have hmem := (insertRow_perm a t).mem_iff.mp hx
      rcases List.mem_cons.mp hmem with rfl | hx2
      · exact hab'
      · exact hb x hx2

/-- The diff-ordering sort produces a diff-ordered list. -/
theorem sortRows_pairwise (l : List (ℚ × NDVISample × TreePoint)) :
    List.Pairwise (fun x y => x.1 ≤ y.1) (sortRows l) := by
  induction l with
  | nil => simp [sortRows]
  | cons a t ih => exact insertRow_pairwise a (sortRows t) ih

/-- Under referential integrity, the join-and-filter pass selects exactly
the samples the claim calls eligible, each paired with its point. -/
theorem filterMap_alertRowOf (points : List TreePoint) (thr : ℚ) (today : PDate)
    (mb : Nat) (store : List NDVISample)
    (hex : ∀ s ∈ store, ∃ p ∈ points, p.id = s.tree_point_id) :
    store.filterMap
        (alertRowOf points thr (subMonths today.firstOfMonth mb) today.firstOfMonth)
      = (store.filter (specAlertEligible today thr mb)).map
          (fun s => ((s.ndvi_diff).getD 0, s,
            (points.find? (fun p => p.id == s.tree_point_id)).getD
              ⟨0, none, none, 0, 0, ""⟩)) := by
  induction store with
  | nil => rfl
  | cons s t ih =>
    have hex_t : ∀ x ∈ t, ∃ p ∈ points, p.id = x.tree_point_id :=
      fun x hx => hex x (List.mem_cons_of_mem _ hx)
    obtain ⟨p, hp, hpid⟩ := hex s (List.mem_cons_self s t)
    have hfind : (points.find? (fun q => q.id == s.tree_point_id)).isSome := by
      rw [List.find?_isSome]
      exact ⟨p, hp, by simp [hpid]⟩
    obtain ⟨q, hq⟩ := Option.isSome_iff_exists.mp hfind
    rw [List.filterMap_cons, List.filter_cons]
    cases hdv : s.ndvi_diff with
    | none =>
      simp [alertRowOf, hq, hdv, specAlertEligible, ih hex_t]
    | some dv =>
      by_cases hcond : (decide (dv < thr) &&
          PDate.le (subMonths today.firstOfMonth mb) s.period_month &&
          PDate.le s.period_month today.firstOfMonth) = true
      · simp [alertRowOf, hq, hdv, specAlertEligible, hcond, ih hex_t]
      · rw [Bool.not_eq_true] at hcond
        simp [alertRowOf, hq, hdv, specAlertEligible, hcond, ih hex_t]

/-- **C8** (confirmed).  Under referential integrity of the store,
`get_alerts` returns exactly the samples whose diff is present and
strictly below the threshold and whose period month lies in the
`months_back`-month window ending at the current month (as a permutation
pairing each with its point), the result is ordered by diff ascending
(most negative first), and every alert's severity is `high` when its diff
is below `threshold * 2` and `medium` otherwise.  The query reads the
store without modifying it. -/
theorem C8_get_alerts (points : List TreePoint) (store : List NDVISample)
    (today : PDate) (threshold : ℚ) (months_back : Nat)
    (hex : ∀ s ∈ store, ∃ p ∈ points, p.id = s.tree_point_id) :
    List.Pairwise (fun a b : Alert => a.ndvi_diff ≤ b.ndvi_diff)
        (get_alerts points store today threshold months_back) ∧
    (get_alerts points store today threshold months_back).Perm
        ((store.filter (specAlertEligible today threshold months_back)).map
          (alertOfSample points threshold)) ∧
    (∀ a ∈ get_alerts points store today threshold months_back,
      a.severity = if decide (a.ndvi_diff < threshold * 2) = true
        then "high" else "medium") := by
  refine ⟨?_, ?_, ?_⟩
  · unfold get_alerts
    rw [List.pairwise_map]
    exact sortRows_pairwise _
  · unfold get_alerts
    have h1 := (sortRows_perm (store.filterMap (alertRowOf points threshold
      (subMonths today.firstOfMonth months_back) today.firstOfMonth))).map
      (mkAlert threshold)
    refine h1.trans ?_
    rw [filterMap_alertRowOf points threshold today months_back store hex]
    rw [List.map_map]
    exact List.Perm.refl _
  · unfold get_alerts
    intro a ha
    obtain ⟨r, _, rfl⟩ := List.mem_map.mp ha
    rfl

/-- Witness for C8: the spec §8 alert scenario (diffs −0.5, −0.2, −0.05
against threshold −0.1). -/
theorem C8_get_alerts_witness :
    (∀ s ∈ alertDemoStore, ∃ p ∈ alertDemoPoints, p.id = s.tree_point_id) ∧
    (List.Pairwise (fun a b : Alert => a.ndvi_diff ≤ b.ndvi_diff)
        (get_alerts alertDemoPoints alertDemoStore ⟨2024, 6, 10⟩ (-0.1) 3) ∧
     (get_alerts alertDemoPoints alertDemoStore ⟨2024, 6, 10⟩ (-0.1) 3).Perm
        ((alertDemoStore.filter (specAlertEligible ⟨2024, 6, 10⟩ (-0.1) 3)).map
          (alertOfSample alertDemoPoints (-0.1))) ∧
     (∀ a ∈ get_alerts alertDemoPoints alertDemoStore ⟨2024, 6, 10⟩ (-0.1) 3,
       a.severity = if decide (a.ndvi_diff < (-0.1) * 2) = true
         then "high" else "medium")) :=
  ⟨by decide,
   C8_get_alerts alertDemoPoints alertDemoStore ⟨2024, 6, 10⟩ (-0.1) 3 (by decide)⟩

/-! ### C4 -/

/-- One step of the validity loop equals a filter step with the amended
three-stage predicate. -/
theorem collectValid_cons (p : TreePoint) (t : List TreePoint) :
    collectValid (p :: t)
      = if specPassesAmended p = true then viewPoint p :: collectValid t
        else collectValid t := by
  simp only [collectValid, specPassesAmended, specTrustedCombo, specInBBox, specInWater,
    viewPoint]
  cases h1 : (strIn "マツ" (p.species.getD "") &&
      (strIn "PT" (p.tree_id.getD "") || strIn "MATSU_ROAD" (p.tree_id.getD "")) ||
    (strIn "ナラ" (p.species.getD "") || strIn "カシ" (p.species.getD "")) &&
      (strIn "PT" (p.tree_id.getD "") || strIn "NARA_ROAD" (p.tree_id.getD ""))) <;>
  cases h2 : (decide ((35.0 : ℚ) ≤ p.lat) && decide (p.lat ≤ (36.0 : ℚ)) &&
      decide ((138.5 : ℚ) ≤ p.lon) && decide (p.lon ≤ (140.5 : ℚ))) <;>
  cases h3 : (decide (p.lat < (35.4 : ℚ)) && decide ((139.7 : ℚ) ≤ p.lon) &&
      decide (p.lon ≤ (140.1 : ℚ))) <;>
  simp [h1, h2, h3]

/-- The validity loop is the amended three-stage filter. -/
theorem collectValid_eq_filter (pts : List TreePoint) :
    collectValid pts = (pts.filter specPassesAmended).map viewPoint := by
  induction pts with
  | nil => rfl
  | cons p t ih =>
    rw [collectValid_cons, List.filter_cons]
    by_cases h : specPassesAmended p = true
    · simp [h, ih]
    · rw [Bool.not_eq_true] at h
      simp [h, ih]

/-- Filtering a mapped list equals mapping the filtered list. -/
theorem filter_map_comm {α β : Type} (f : α → β) (q : β → Bool) (l : List α) :
    (l.map f).filter q = (l.filter (fun a => q (f a))).map f := by
  induction l with
  | nil => rfl
  | cons a t ih =>
    by_cases h : q (f a) = true
    · simp [List.filter_cons, h, ih]
    · rw [Bool.not_eq_true] at h
      simp [List.filter_cons, h, ih]

/-- The two-valued priority key of the final sort tests exactly the
primary-taxon keyword of the original point. -/
theorem priorityKey_viewPoint (p : TreePoint) :
    (priorityKey (viewPoint p) == 0) = strIn "マツ" (p.species.getD "") := by
  by_cases h : strIn "マツ" (p.species.getD "") = true
  · simp [priorityKey, viewPoint, h]
  · rw [Bool.not_eq_true] at h
    simp [priorityKey, viewPoint, h]

/-- **C4** (counterexample to the claim as stated).  A direct citizen
submission (source `citizen_report`) inside the bounding box and outside
the water area passes the claim's three stages, yet
`_get_all_points` excludes it: the implementation has no
citizen-submission disjunct in its provenance stage. -/
theorem C4_counterexample :
    specPassesClaim ⟨2, some "R9", some "サクラ", 139.5, 35.7, "citizen_report"⟩ = true ∧
    getAllPoints [⟨2, some "R9", some "サクラ", 139.5, 35.7, "citizen_report"⟩] = [] := by
  decide

/-- **C4** (amended).  `_get_all_points` returns exactly the registered
points that pass the three stages — a trusted species/external-id
combination (there is no citizen-submission path), inside the configured
bounding box, and outside the water-exclusion area — with the points whose
species contains the primary taxon keyword first and the rest after, each
group in insertion order. -/
theorem C4_valid_points (pts : List TreePoint) :
    getAllPoints pts
      = ((pts.filter specPassesAmended).filter
            (fun p => strIn "マツ" (p.species.getD ""))).map viewPoint
        ++ ((pts.filter specPassesAmended).filter
            (fun p => !strIn "マツ" (p.species.getD ""))).map viewPoint := by
  unfold getAllPoints prioritySort
  rw [collectValid_eq_filter]
  rw [filter_map_comm viewPoint (fun q => priorityKey q == 0),
    filter_map_comm viewPoint (fun q => !(priorityKey q == 0))]
  have e1 : (pts.filter specPassesAmended).filter
        (fun a => priorityKey (viewPoint a) == 0)
      = (pts.filter specPassesAmended).filter
        (fun p => strIn "マツ" (p.species.getD "")) := by
    apply List.filter_congr
    intro a _
    exact priorityKey_viewPoint a
  have e2 : (pts.filter specPassesAmended).filter
        (fun a => !(priorityKey (viewPoint a) == 0))
      = (pts.filter specPassesAmended).filter
        (fun p => !strIn "マツ" (p.species.getD "")) := by
    apply List.filter_congr
    intro a _
    rw [priorityKey_viewPoint a]
  rw [e1, e2]

end TreeNdvi
